import Mathlib

/-!
Verification of the static-site build pipeline (`scripts/build.py`).

The development shallowly embeds the content pipeline of `SiteBuilder`:
loading and filtering dated, status-gated tabular records
(`load_products` / `load_posts`), slug derivation, template rendering
(`render_template`), and the sitemap / RSS generators.  Rows and the site
configuration are association lists of string fields in source order,
mirroring Python dicts (insertion ordered).  All character-level work is
done on `List Char`.
-/

namespace Build

/-- Calendar date as produced by `datetime.strptime(s, "%Y-%m-%d").date()`. -/
structure Date where
  y : Nat
  m : Nat
  d : Nat
deriving DecidableEq

/-- Python `date` comparison: lexicographic on (year, month, day). -/
def Date.ble (a b : Date) : Bool :=
  if a.y ≠ b.y then a.y < b.y
  else if a.m ≠ b.m then a.m < b.m
  else a.d ≤ b.d

/-- A CSV row from `csv.DictReader`: field name to string value, in column
order.  A Python dict more generally (used for the site config too). -/
abbrev Row := List (String × String)

/-- Python `row.get(k, "")`, and also `row.get(k)` at use sites that only
test truthiness (missing and `""` are both falsy). -/
def rowGet (row : Row) (k : String) : String :=
  (Option.map Prod.snd (row.find? (fun kv => kv.1 == k))).getD ""

/-- Python `str.lower()` restricted to its ASCII action (the status values
and titles handled by the build are ASCII). -/
def strLower (s : String) : String :=
  String.mk (s.data.map Char.toLower)

/-- Python `"-"`-splitting of a character list, as `s.split('-')`:
empty parts are kept. -/
def splitOnDash : List Char → List (List Char)
  | [] => [[]]
  | c :: rest =>
    match splitOnDash rest with
    | h :: t => if c = '-' then [] :: h :: t else (c :: h) :: t
    | [] => [[c]]

/-- Value of a list of ASCII digit characters. -/
def digitsToNat (l : List Char) : Nat :=
  l.foldl (fun n c => 10 * n + (c.toNat - 48)) 0

/-- Leap-year rule used by `datetime`. -/
def leapYear (y : Nat) : Bool :=
  y % 4 = 0 && (y % 100 ≠ 0 || y % 400 = 0)

/-- Number of days in a month, as validated by `datetime`. -/
def daysInMonth (y m : Nat) : Nat :=
  if m = 2 then (if leapYear y then 29 else 28)
  else if m = 4 ∨ m = 6 ∨ m = 9 ∨ m = 11 then 30
  else 31

/-- Model of `datetime.strptime(s, "%Y-%m-%d").date()`: `none` is a
`ValueError`.  CPython's `_strptime` matches `%Y` as exactly four digits,
`%m` as one or two digits valued 1..12, `%d` as one or two digits valued
1..31, requires the whole string to be consumed, and then `datetime`
validates the day against the month length and requires year ≥ 1. -/
def parseYMD (s : String) : Option Date :=
  match splitOnDash s.data with
  | [ys, ms, ds] =>
    if ys.length = 4 ∧ ys.all Char.isDigit ∧
       (ms.length = 1 ∨ ms.length = 2) ∧ ms.all Char.isDigit ∧
       (ds.length = 1 ∨ ds.length = 2) ∧ ds.all Char.isDigit then
      let y := digitsToNat ys
      let m := digitsToNat ms
      let d := digitsToNat ds
      if 1 ≤ y ∧ 1 ≤ m ∧ m ≤ 12 ∧ 1 ≤ d ∧ d ≤ daysInMonth y m then
        some ⟨y, m, d⟩
      else none
    else none
  | _ => none

/-- The per-row publish gate of `load_products` / `load_posts`: skip unless
`status` lowercases to `published`; then, when a `publish_date` is present
(non-empty), skip only if it parses to a date strictly after `today`; a
`ValueError` from parsing falls through to `pass` (row kept). -/
def publish_gate (today : Date) (row : Row) : Bool :=
  if strLower (rowGet row "status") ≠ "published" then false
  else if rowGet row "publish_date" ≠ "" then
    match parseYMD (rowGet row "publish_date") with
    | some d => Date.ble d today
    | none => true
  else true

/-- Sort key of `self.products.sort(key=lambda x: x.get('publish_date', ''),
reverse=True)`. -/
def sortKey (row : Row) : String :=
  rowGet row "publish_date"

/-- Executable lexicographic order on character lists: Python's `str`
comparison (code-point lexicographic).  Proven below to agree with the
order on `String`. -/
def listLe : List Char → List Char → Bool
  | [], _ => true
  | _ :: _, [] => false
  | a :: as, b :: bs => if a = b then listLe as bs else decide (a < b)

/-- Python string comparison `a <= b`, executable. -/
def strLe (a b : String) : Bool :=
  listLe a.data b.data

/-- Insertion step of a stable descending sort: `x` (earlier in the source
than everything in `l`) is placed before the first element whose key is
≤ its own, so equal keys keep source order. -/
def insertDesc (x : Row) : List Row → List Row
  | [] => [x]
  | y :: ys => if strLe (sortKey y) (sortKey x) then x :: y :: ys else y :: insertDesc x ys

/-- Stable descending sort by `sortKey`, modelling Python's stable
`list.sort(key=..., reverse=True)`. -/
def sortDesc : List Row → List Row
  | [] => []
  | x :: xs => insertDesc x (sortDesc xs)

/-- Body shared by `load_products` and `load_posts`: keep the rows passing
the publish gate in row order, then sort by raw `publish_date` string,
newest first. -/
def loadRows (today : Date) (rows : List Row) : List Row :=
  sortDesc (rows.filter (publish_gate today))

/-- `SiteBuilder.load_products` on the rows read from `products.csv`. -/
def load_products (today : Date) (rows : List Row) : List Row :=
  loadRows today rows

/-- `SiteBuilder.load_posts` on the rows read from `posts.csv`. -/
def load_posts (today : Date) (rows : List Row) : List Row :=
  loadRows today rows

/-- Loading with the data source made explicit: `open` failing raises
(`Except.error`), per-row processing never does. -/
def load_products_src (src : Except String (List Row)) (today : Date) :
    Except String (List Row) :=
  match src with
  | .error e => .error e
  | .ok rows => .ok (load_products today rows)

/-- Same for `load_posts`. -/
def load_posts_src (src : Except String (List Row)) (today : Date) :
    Except String (List Row) :=
  match src with
  | .error e => .error e
  | .ok rows => .ok (load_posts today rows)

/-! Template rendering: `SiteBuilder.render_template`. -/

/-- First-match lookup in a dict (Python dict access; real Python dicts
have unique keys, so first match is the match). -/
def lookup? (d : Row) (k : String) : Option String :=
  Option.map Prod.snd (d.find? (fun kv => kv.1 == k))

/-- Python `context.update(self.site_config)`: keys already present keep
their position but receive the config's value; unseen config keys are
appended in config order. -/
def dictUpdate (d other : Row) : Row :=
  d.map (fun kv => (kv.1, (lookup? other kv.1).getD kv.2))
    ++ other.filter (fun kv => (lookup? d kv.1).isNone)

/-- The literal token `"{{ " + key + " }}"` built by the replacement loop. -/
def placeholder (k : String) : List Char :=
  '\x7b' :: '\x7b' :: ' ' :: (k.data ++ [' ', '\x7d', '\x7d'])

/-- Python `content.replace(pat, rep)` on character lists: scan left to
right, replace non-overlapping occurrences.  (`str.replace` with an empty
pattern never occurs here — placeholders are non-empty — and is modelled as
the identity.) -/
def replaceL (pat rep : List Char) : List Char → List Char
  | [] => []
  | a :: s =>
    if pat.isPrefixOf (a :: s) ∧ pat ≠ []
    then rep ++ replaceL pat rep (List.drop (pat.length - 1) s)
    else a :: replaceL pat rep s
termination_by l => l.length
decreasing_by
  · simp only [List.length_cons, List.length_drop]
    omega
  · simp

/-- The replacement loop of `render_template`:
`for key, value in context.items(): content = content.replace("{{ " + key + " }}", str(value))`
(values are carried in string form). -/
def renderItems (items : Row) (content : List Char) : List Char :=
  items.foldl (fun c kv => replaceL (placeholder kv.1) kv.2.data c) content

/-- `SiteBuilder.render_template`, applied to a template body already read
from the template store: merge the site config into the page context
(`context.update(self.site_config)` — config values overwrite colliding
page keys, and the caller's dict keeps the merged entries), then run the
replacement loop.  Returns the rendered text together with the merged
context the caller's dict now holds; the config argument itself is only
read. -/
def render_template (config : Row) (body : String) (context : Row) :
    String × Row :=
  let merged := dictUpdate context config
  (String.mk (renderItems merged body.data), merged)

/-- A template body viewed as literal chunks interleaved with placeholder
tokens. -/
inductive Tok where
  | lit : List Char → Tok
  | hole : String → Tok
deriving DecidableEq

/-- The characters a token contributes to the raw template body. -/
def tokChars : Tok → List Char
  | .lit s => s
  | .hole k => placeholder k

/-- The raw template body of a token list. -/
def joinToks (ts : List Tok) : List Char :=
  (ts.map tokChars).flatten

/-- Effect of one `str.replace` pass for context entry `(k, v)` on a token. -/
def substTok (k : String) (v : List Char) : Tok → Tok
  | .lit s => .lit s
  | .hole k2 => if k2 = k then .lit v else .hole k2

/-- Effect of the whole replacement loop on a token. -/
def fullSubst (ctx : Row) : Tok → Tok
  | .lit s => .lit s
  | .hole k =>
    match lookup? ctx k with
    | some v => .lit v.data
    | none => .hole k

/-- Simultaneous rendering of one token, as the spec describes it: a
placeholder whose key is present becomes the value's string form, one whose
key is absent stays verbatim. -/
def renderTok (ctx : Row) : Tok → List Char
  | .lit s => s
  | .hole k =>
    match lookup? ctx k with
    | some v => v.data
    | none => placeholder k

/-- No brace characters: such text can neither contain nor help form a
placeholder. -/
def braceFree (s : List Char) : Bool :=
  s.all (fun c => c ≠ '\x7b' ∧ c ≠ '\x7d')

/-- Keys are non-empty and alphanumeric (as the build's `title`,
`description`, `base_url`-style keys are, `_` aside, which the ASCII model
omits). -/
def keyOK (k : String) : Bool :=
  !k.data.isEmpty && k.data.all Char.isAlphanum

/-- Well-formed token: a brace-free literal chunk or a well-formed key. -/
def tokOK : Tok → Bool
  | .lit s => braceFree s
  | .hole k => keyOK k

/-- Well-formed context: every key well-formed, every value brace-free. -/
def ctxOK (ctx : Row) : Bool :=
  ctx.all (fun kv => keyOK kv.1 && braceFree kv.2.data)

/-! Slug derivation: `re.sub(r'[^a-z0-9]+', '-', title.lower()).strip('-')`,
repeated verbatim in `generate_pages`, `generate_sitemap` and
`generate_rss`. -/

/-- Membership in the regex class `[a-z0-9]`. -/
def isSlugChar (c : Char) : Bool :=
  ('a' ≤ c ∧ c ≤ 'z') ∨ ('0' ≤ c ∧ c ≤ '9')

/-- One left-to-right pass of `re.sub(r'[^a-z0-9]+', '-', ·)`: the flag
records whether the scan is inside a non-matching run whose hyphen has
already been emitted (the regex consumes each maximal run whole). -/
def collapseGo (inRun : Bool) : List Char → List Char
  | [] => []
  | c :: rest =>
    if isSlugChar c then c :: collapseGo false rest
    else if inRun then collapseGo true rest
    else '-' :: collapseGo true rest

/-- Python `str.strip('-')`: remove all leading and trailing hyphens. -/
def stripHyphens (l : List Char) : List Char :=
  ((l.dropWhile (· = '-')).reverse.dropWhile (· = '-')).reverse

/-- The slug of a title: `re.sub(r'[^a-z0-9]+', '-', title.lower()).strip('-')`
(ASCII model of `str.lower`). -/
def slugify (title : String) : String :=
  String.mk (stripHyphens (collapseGo false (title.data.map Char.toLower)))

/-- Modelled from the spec's wording for comparison: rewrite each character
outside `[a-z0-9]` as a hyphen, … -/
def hyphenate (l : List Char) : List Char :=
  l.map (fun c => if isSlugChar c then c else '-')

/-- Modelled from the spec's wording: … collapse each run of adjacent
hyphens to a single one, … -/
def squeezeHyphens : List Char → List Char
  | [] => []
  | [c] => [c]
  | a :: b :: rest =>
    if a = '-' ∧ b = '-' then squeezeHyphens (b :: rest)
    else a :: squeezeHyphens (b :: rest)

/-- Modelled from the spec's wording of the slug algorithm: lower-case,
replace every maximal run of characters outside `[a-z0-9]` by one hyphen,
strip leading and trailing hyphens. -/
def slugifySpec (title : String) : String :=
  String.mk (stripHyphens (squeezeHyphens (hyphenate (title.data.map Char.toLower))))

/-! Lemmas about the sort. -/

theorem listLe_iff : ∀ (x y : List Char), listLe x y = true ↔ x ≤ y
  | [], y => by simp [listLe, List.nil_le]
  | a :: as, [] => by
    simp only [listLe, Bool.false_eq_true, false_iff]
    exact not_le.mpr (List.nil_lt_cons a as)
  | a :: as, b :: bs => by
    by_cases hab : a = b
    · subst hab
      rw [listLe, if_pos rfl, listLe_iff as bs]
      constructor
      · exact fun h => List.cons_le_cons a h
      · intro h
        by_contra hc
        have hlt : bs < as := not_le.mp hc
        have hlex : List.Lex (· < ·) (a :: bs) (a :: as) := List.Lex.cons hlt
        exact absurd hlex (not_lt.mpr h)
    · rw [listLe, if_neg hab]
      simp only [decide_eq_true_eq]
      constructor
      · intro hlt
        exact le_of_lt (List.Lex.rel hlt)
      · intro h
        rcases lt_or_eq_of_le h with hlt | heq
        · have hlex : List.Lex (· < ·) (a :: as) (b :: bs) := hlt
          cases hlex with
          | cons h' => exact absurd rfl hab
          | rel h' => exact h'
        · exact absurd (List.cons.injEq .. ▸ heq).1 hab

theorem strLe_iff (a b : String) : strLe a b = true ↔ a ≤ b := by
  rw [strLe, listLe_iff]
  exact String.le_iff_toList_le.symm

theorem mem_insertDesc (x a : Row) (l : List Row) :
    a ∈ insertDesc x l ↔ a = x ∨ a ∈ l := by
  induction l with
  | nil => simp [insertDesc]
  | cons y ys ih =>
    by_cases h : strLe (sortKey y) (sortKey x) = true
    · simp [insertDesc, h]
    · simp only [insertDesc, if_neg h, List.mem_cons, ih]
      tauto

theorem mem_sortDesc (a : Row) (l : List Row) :
    a ∈ sortDesc l ↔ a ∈ l := by
  induction l with
  | nil => simp [sortDesc]
  | cons x xs ih => simp [sortDesc, mem_insertDesc, ih]

theorem pairwise_insertDesc (x : Row) (l : List Row)
    (h : l.Pairwise (fun a b => sortKey b ≤ sortKey a)) :
    (insertDesc x l).Pairwise (fun a b => sortKey b ≤ sortKey a) := by
  induction l with
  | nil => simp [insertDesc]
  | cons y ys ih =>
    rcases List.pairwise_cons.mp h with ⟨hy, hys⟩
    by_cases hxy : strLe (sortKey y) (sortKey x) = true
    · rw [insertDesc, if_pos hxy]
      refine List.pairwise_cons.mpr ⟨?_, h⟩
      intro b hb
      rcases List.mem_cons.mp hb with rfl | hb
      · exact (strLe_iff _ _).mp hxy
      · exact le_trans (hy b hb) ((strLe_iff _ _).mp hxy)
    · rw [insertDesc, if_neg hxy]
      refine List.pairwise_cons.mpr ⟨?_, ih hys⟩
      intro b hb
      rcases (mem_insertDesc x b ys).mp hb with rfl | hb
      · exact le_of_not_le (fun hc => hxy ((strLe_iff _ _).mpr hc))
      · exact hy b hb

theorem pairwise_sortDesc (l : List Row) :
    (sortDesc l).Pairwise (fun a b => sortKey b ≤ sortKey a) := by
  induction l with
  | nil => simp [sortDesc]
  | cons x xs ih => exact pairwise_insertDesc x (sortDesc xs) ih

theorem filter_insertDesc (x : Row) (l : List Row) (k : String) :
    (insertDesc x l).filter (fun r => sortKey r == k) =
      if sortKey x == k then x :: l.filter (fun r => sortKey r == k)
      else l.filter (fun r => sortKey r == k) := by
  induction l with
  | nil =>
    by_cases hx : sortKey x == k <;> simp [insertDesc, List.filter, hx]
  | cons y ys ih =>
    by_cases hxy : strLe (sortKey y) (sortKey x) = true
    · by_cases hx : sortKey x == k <;> simp [insertDesc, hxy, List.filter, hx]
    · have hyk : (sortKey y == k) = true → (sortKey x == k) = false := by
        intro hy
        rcases beq_iff_eq.mp hy with rfl
        by_contra hcon
        rcases beq_iff_eq.mp (Bool.of_not_eq_false hcon) with hxk
        exact hxy ((strLe_iff _ _).mpr (le_of_eq hxk.symm))
      by_cases hy : sortKey y == k
      · have hx := hyk hy
        simp [insertDesc, hxy, List.filter, hy, hx, ih]
      · by_cases hx : sortKey x == k <;>
          simp [insertDesc, hxy, List.filter, hy, hx, ih]

theorem filter_sortDesc (l : List Row) (k : String) :
    (sortDesc l).filter (fun r => sortKey r == k) =
      l.filter (fun r => sortKey r == k) := by
  induction l with
  | nil => simp [sortDesc]
  | cons x xs ih =>
    rw [sortDesc, filter_insertDesc]
    by_cases hx : sortKey x == k <;> simp [List.filter, hx, ih]

theorem empty_string_le (s : String) : "" ≤ s := by
  rw [String.le_iff_toList_le]
  exact List.nil_le

/-- The publish gate, unfolded into the eligibility condition of the spec:
status lowercases to `published`, and the `publish_date` is empty, or parses
to a date ≤ today, or fails to parse. -/
theorem publish_gate_iff (today : Date) (row : Row) :
    publish_gate today row = true ↔
      strLower (rowGet row "status") = "published" ∧
        (rowGet row "publish_date" = "" ∨
         (∃ d, parseYMD (rowGet row "publish_date") = some d ∧ Date.ble d today = true) ∨
         parseYMD (rowGet row "publish_date") = none) := by
  by_cases hs : strLower (rowGet row "status") = "published"
  · by_cases hp : rowGet row "publish_date" = ""
    · simp [publish_gate, hs, hp]
    · cases hd : parseYMD (rowGet row "publish_date") with
      | none => simp [publish_gate, hs, hp, hd]
      | some d =>
        cases hb : Date.ble d today <;>
          simp [publish_gate, hs, hp, hd, hb]
  · simp [publish_gate, hs]

theorem mem_loadRows (today : Date) (rows : List Row) (row : Row) :
    row ∈ loadRows today rows ↔
      row ∈ rows ∧
        strLower (rowGet row "status") = "published" ∧
        (rowGet row "publish_date" = "" ∨
         (∃ d, parseYMD (rowGet row "publish_date") = some d ∧ Date.ble d today = true) ∨
         parseYMD (rowGet row "publish_date") = none) := by
  rw [loadRows, mem_sortDesc, List.mem_filter, publish_gate_iff]

/-- C1: a row appears in the built products (resp. posts) collection iff its
status field case-insensitively equals `published` and its `publish_date` is
absent or empty, or parses as a `YYYY-MM-DD` date at most the build's current
date, or fails to parse (unparseable dates do not exclude a published row). -/
theorem products_posts_membership (today : Date) (rows : List Row) (row : Row) :
    (row ∈ load_products today rows ↔
      row ∈ rows ∧
        strLower (rowGet row "status") = "published" ∧
        (rowGet row "publish_date" = "" ∨
         (∃ d, parseYMD (rowGet row "publish_date") = some d ∧ Date.ble d today = true) ∨
         parseYMD (rowGet row "publish_date") = none)) ∧
    (row ∈ load_posts today rows ↔
      row ∈ rows ∧
        strLower (rowGet row "status") = "published" ∧
        (rowGet row "publish_date" = "" ∨
         (∃ d, parseYMD (rowGet row "publish_date") = some d ∧ Date.ble d today = true) ∨
         parseYMD (rowGet row "publish_date") = none)) :=
  ⟨mem_loadRows today rows row, mem_loadRows today rows row⟩

theorem loadRows_sorted (today : Date) (rows : List Row) :
    (loadRows today rows).Pairwise (fun a b => sortKey b ≤ sortKey a) :=
  pairwise_sortDesc _

theorem loadRows_stable (today : Date) (rows : List Row) (k : String) :
    (loadRows today rows).filter (fun r => sortKey r == k) =
      (rows.filter (publish_gate today)).filter (fun r => sortKey r == k) :=
  filter_sortDesc _ k

theorem loadRows_undated_last (today : Date) (rows : List Row) :
    (loadRows today rows).Pairwise (fun a b => sortKey a = "" → sortKey b = "") := by
  refine (loadRows_sorted today rows).imp ?_
  intro a b hle ha
  rw [ha] at hle
  exact le_antisymm hle (empty_string_le _)

/-- C4: each built collection is sorted by the raw `publish_date` string
(missing dates read as `""`) in descending order; for every key value the
records carrying it keep their order from the gate-filtered source rows
(stability); and no dated record follows an undated one. -/
theorem collections_sorted_stable (today : Date) (rows : List Row) :
    (load_products today rows).Pairwise (fun a b => sortKey b ≤ sortKey a) ∧
    (∀ k, (load_products today rows).filter (fun r => sortKey r == k) =
      (rows.filter (publish_gate today)).filter (fun r => sortKey r == k)) ∧
    (load_products today rows).Pairwise (fun a b => sortKey a = "" → sortKey b = "") ∧
    (load_posts today rows).Pairwise (fun a b => sortKey b ≤ sortKey a) ∧
    (∀ k, (load_posts today rows).filter (fun r => sortKey r == k) =
      (rows.filter (publish_gate today)).filter (fun r => sortKey r == k)) ∧
    (load_posts today rows).Pairwise (fun a b => sortKey a = "" → sortKey b = "") :=
  ⟨loadRows_sorted today rows, fun k => loadRows_stable today rows k,
   loadRows_undated_last today rows, loadRows_sorted today rows,
   fun k => loadRows_stable today rows k, loadRows_undated_last today rows⟩

/-- C9: loading propagates a data-source error exactly when the source
itself fails; on a readable source it always succeeds, and a row whose
`publish_date` does not parse is still eligible whenever its status is
`published` (the `ValueError` is swallowed). -/
theorem loading_error_policy (today : Date) :
    (∀ (e : String), load_products_src (Except.error e) today = Except.error e ∧
      load_posts_src (Except.error e) today = Except.error e) ∧
    (∀ (rows : List Row), load_products_src (Except.ok rows) today =
        Except.ok (load_products today rows) ∧
      load_posts_src (Except.ok rows) today = Except.ok (load_posts today rows)) ∧
    (∀ (row : Row), strLower (rowGet row "status") = "published" →
      parseYMD (rowGet row "publish_date") = none →
      publish_gate today row = true) := by
  refine ⟨fun e => ⟨rfl, rfl⟩, fun rows => ⟨rfl, rfl⟩, fun row hs hp => ?_⟩
  rw [publish_gate_iff]
  exact ⟨hs, Or.inr (Or.inr hp)⟩

/-- Witness for C9 at a concrete row whose `publish_date` is the
unparseable string `next week`. -/
theorem loading_error_policy_witness :
    publish_gate ⟨2025, 10, 12⟩
      [("status", "published"), ("publish_date", "next week")] = true :=
  (loading_error_policy ⟨2025, 10, 12⟩).2.2
    [("status", "published"), ("publish_date", "next week")]
    (by decide) (by decide)

/-! Slug lemmas. -/

theorem isSlugChar_ne_hyphen {c : Char} (hc : isSlugChar c = true) : c ≠ '-' := by
  intro h
  subst h
  exact absurd hc (by decide)

theorem collapse_squeeze (l : List Char) :
    collapseGo false l = squeezeHyphens (hyphenate l) ∧
    '-' :: collapseGo true l = squeezeHyphens ('-' :: hyphenate l) := by
  induction l with
  | nil => exact ⟨rfl, rfl⟩
  | cons c rest ih =>
    rcases ih with ⟨ihA, ihB⟩
    by_cases hc : isSlugChar c = true
    · have hcne : c ≠ '-' := isSlugChar_ne_hyphen hc
      have h1 : hyphenate (c :: rest) = c :: hyphenate rest := by
        simp [hyphenate, hc]
      have hA : collapseGo false (c :: rest) = squeezeHyphens (hyphenate (c :: rest)) := by
        cases rest with
        | nil => simp [collapseGo, hyphenate, squeezeHyphens, hc]
        | cons r rest' =>
          have h2 : hyphenate (r :: rest') =
              (if isSlugChar r then r else '-') :: hyphenate rest' := by
            simp [hyphenate]
          rw [h1, h2, squeezeHyphens,
            if_neg (fun hand => hcne hand.1), ← h2, ← ihA]
          simp [collapseGo, hc]
      refine ⟨hA, ?_⟩
      rw [h1, squeezeHyphens, if_neg (fun hand => hcne hand.2), ← h1, ← hA]
      simp [collapseGo, hc]
    · have h1 : hyphenate (c :: rest) = '-' :: hyphenate rest := by
        simp [hyphenate, hc]
      have hA : collapseGo false (c :: rest) = squeezeHyphens (hyphenate (c :: rest)) := by
        rw [h1, ← ihB]
        simp [collapseGo, hc]
      refine ⟨hA, ?_⟩
      rw [h1, squeezeHyphens, if_pos ⟨rfl, rfl⟩, ← ihB]
      simp [collapseGo, hc]

theorem slugify_eq_spec (title : String) : slugify title = slugifySpec title := by
  rw [slugify, slugifySpec, (collapse_squeeze (title.data.map Char.toLower)).1]

/-- C3: `slugify` is the deterministic total function given by lower-casing,
replacing every maximal run of characters outside `[a-z0-9]` by a single
hyphen, and stripping leading and trailing hyphens; with the three example
evaluations of the spec. -/
theorem slugify_algorithm :
    (∀ (title : String), slugify title = slugifySpec title) ∧
    slugify "Hello, World!" = "hello-world" ∧
    slugify "" = "" ∧
    slugify "  A -- B  " = "a-b" :=
  ⟨slugify_eq_spec, by decide, by decide, by decide⟩

/-! Output artifacts: the pages written by `generate_pages`, the sitemap of
`generate_sitemap` / `add_sitemap_url`, and the feed of `generate_rss`. -/

/-- Zero-padded decimal of width 2, as `strftime` `%m` / `%d`. -/
def pad2 (n : Nat) : String :=
  if n < 10 then "0" ++ toString n else toString n

/-- Zero-padded decimal of width 4, as `strftime` `%Y`. -/
def pad4 (n : Nat) : String :=
  if n < 10 then "000" ++ toString n
  else if n < 100 then "00" ++ toString n
  else if n < 1000 then "0" ++ toString n
  else toString n

/-- The build date string `datetime.now().strftime("%Y-%m-%d")`. -/
def fmtDate (d : Date) : String :=
  pad4 d.y ++ "-" ++ pad2 d.m ++ "-" ++ pad2 d.d

/-- One `<url>` element of the sitemap: `loc`, `priority`, `changefreq` and
`lastmod` children, in the order `add_sitemap_url` creates them. -/
structure UrlEntry where
  loc : String
  priority : String
  changefreq : String
  lastmod : String
deriving DecidableEq

/-- `SiteBuilder.add_sitemap_url`: append one `<url>` element to the
`urlset`, with `lastmod` set to the build's current date. -/
def add_sitemap_url (urlset : List UrlEntry) (loc priority changefreq : String)
    (today : Date) : List UrlEntry :=
  urlset ++ [⟨loc, priority, changefreq, fmtDate today⟩]

/-- The sequence of files written by `SiteBuilder.generate_pages`, by output
path relative to `_site`, in write order: home page, products index, one
detail page per product, blog index, one detail page per post.  (The claims
settled here concern which paths are written; the HTML contents go through
`render_template`, treated separately.) -/
def generate_pages (products posts : List Row) : List String :=
  ["index.html", "products/index.html"]
    ++ products.map (fun p => "products/" ++ slugify (rowGet p "title") ++ ".html")
    ++ ["blog/index.html"]
    ++ posts.map (fun p => "blog/" ++ slugify (rowGet p "title") ++ ".html")

/-- `SiteBuilder.generate_sitemap` as the list of `<url>` elements of the
written `urlset`, in document order.  (`self.site_config['base_url']` is
modelled as lookup with `""` default; no claim concerns a missing
`base_url`.) -/
def generate_sitemap (cfg : Row) (products posts : List Row) (today : Date) :
    List UrlEntry :=
  let u0 := add_sitemap_url [] (rowGet cfg "base_url") "1.0" "daily" today
  let u1 := products.foldl (fun acc p =>
    add_sitemap_url acc
      (rowGet cfg "base_url" ++ "/products/" ++ slugify (rowGet p "title") ++ ".html")
      "0.8" "weekly" today) u0
  posts.foldl (fun acc p =>
    add_sitemap_url acc
      (rowGet cfg "base_url" ++ "/blog/" ++ slugify (rowGet p "title") ++ ".html")
      "0.7" "monthly" today) u1

/-- One `<item>` element of the RSS channel. -/
structure RssItem where
  title : String
  description : String
  link : String
  pubDate : String
deriving DecidableEq

/-- The single `<channel>` of `rss.xml`. -/
structure RssChannel where
  title : String
  description : String
  link : String
  items : List RssItem

/-- `SiteBuilder.generate_rss`: channel header from the site config, then
one `<item>` per post of `self.posts[:10]`, in order. -/
def generate_rss (cfg : Row) (posts : List Row) : RssChannel :=
  { title := rowGet cfg "title"
    description := rowGet cfg "description"
    link := rowGet cfg "base_url"
    items := (posts.take 10).foldl (fun acc post =>
      acc ++ [⟨rowGet post "title", rowGet post "excerpt",
        rowGet cfg "base_url" ++ "/blog/" ++ slugify (rowGet post "title") ++ ".html",
        rowGet post "publish_date"⟩]) [] }

/-! Closed forms of the generators. -/

theorem foldl_push {α β : Type} (f : α → β) :
    ∀ (l : List α) (init : List β),
      l.foldl (fun acc x => acc ++ [f x]) init = init ++ l.map f
  | [], init => by simp
  | x :: xs, init => by
    rw [List.foldl_cons, foldl_push f xs (init ++ [f x])]
    simp

theorem generate_sitemap_eq (cfg : Row) (products posts : List Row) (today : Date) :
    generate_sitemap cfg products posts today =
      ⟨rowGet cfg "base_url", "1.0", "daily", fmtDate today⟩ ::
        (products.map (fun p =>
          ⟨rowGet cfg "base_url" ++ "/products/" ++ slugify (rowGet p "title") ++ ".html",
           "0.8", "weekly", fmtDate today⟩)
         ++ posts.map (fun p =>
          ⟨rowGet cfg "base_url" ++ "/blog/" ++ slugify (rowGet p "title") ++ ".html",
           "0.7", "monthly", fmtDate today⟩)) := by
  rw [generate_sitemap]
  simp only [add_sitemap_url, foldl_push]
  simp

theorem generate_rss_items_eq (cfg : Row) (posts : List Row) :
    (generate_rss cfg posts).items = (posts.take 10).map (fun post =>
      ⟨rowGet post "title", rowGet post "excerpt",
       rowGet cfg "base_url" ++ "/blog/" ++ slugify (rowGet post "title") ++ ".html",
       rowGet post "publish_date"⟩) := by
  rw [generate_rss]
  simp only [foldl_push]
  simp

/-! Lemmas about `str.replace` and the rendering loop. -/

theorem replaceL_nil (pat rep : List Char) : replaceL pat rep [] = [] := by
  simp [replaceL]

theorem replaceL_skip (pat rep : List Char) (a : Char) (s : List Char)
    (h : pat.isPrefixOf (a :: s) = false) :
    replaceL pat rep (a :: s) = a :: replaceL pat rep s := by
  rw [replaceL]
  simp [h]

theorem isPrefixOf_self_append :
    ∀ (l t : List Char), l.isPrefixOf (l ++ t) = true
  | [], _ => by simp [List.isPrefixOf]
  | a :: l, t => by
    simp only [List.cons_append, List.isPrefixOf_cons₂_self]
    exact isPrefixOf_self_append l t

theorem replaceL_fire (pat rep s : List Char) (h : pat ≠ []) :
    replaceL pat rep (pat ++ s) = rep ++ replaceL pat rep s := by
  cases pat with
  | nil => exact absurd rfl h
  | cons p pt =>
    rw [List.cons_append, replaceL,
      if_pos ⟨by rw [← List.cons_append]; exact isPrefixOf_self_append _ _, h⟩]
    congr 1
    rw [show (p :: pt).length - 1 = pt.length by simp]
    rw [List.drop_left]

theorem replaceL_whole (pat rep : List Char) (h : pat ≠ []) :
    replaceL pat rep pat = rep := by
  have hf := replaceL_fire pat rep [] h
  rw [List.append_nil] at hf
  rw [hf, replaceL_nil, List.append_nil]

theorem isPrefixOf_head_ne (p a : Char) (pt s : List Char) (h : p ≠ a) :
    (p :: pt).isPrefixOf (a :: s) = false := by
  simp only [List.isPrefixOf_cons₂]
  simp [h]

theorem replaceL_chunk (p : Char) (pt rep : List Char) :
    ∀ (x y : List Char), (∀ c ∈ x, c ≠ p) →
      replaceL (p :: pt) rep (x ++ y) = x ++ replaceL (p :: pt) rep y
  | [], y, _ => by simp
  | a :: x, y, h => by
    rw [List.cons_append,
      replaceL_skip _ _ _ _ (isPrefixOf_head_ne p a pt _ (Ne.symm (h a (by simp)))),
      replaceL_chunk p pt rep x y (fun c hc => h c (by simp [hc])), List.cons_append]

theorem alnum_ne_special {c : Char} (h : c.isAlphanum = true) :
    c ≠ ' ' ∧ c ≠ '\x7b' ∧ c ≠ '\x7d' := by
  refine ⟨?_, ?_, ?_⟩ <;> intro heq <;> rw [heq] at h <;> exact absurd h (by decide)

theorem keys_mismatch :
    ∀ (kd ke z w : List Char),
      kd.all Char.isAlphanum = true → ke.all Char.isAlphanum = true →
      kd ≠ ke →
      (kd ++ (' ' :: z)).isPrefixOf (ke ++ (' ' :: w)) = false
  | [], [], _, _, _, _, hne => absurd rfl hne
  | [], c :: ke, z, w, _, hke, _ => by
    have hc : c.isAlphanum = true := (List.all_eq_true.mp hke) c (by simp)
    simp only [List.nil_append, List.cons_append]
    exact isPrefixOf_head_ne ' ' c z _ (Ne.symm (alnum_ne_special hc).1)
  | a :: kd, [], z, w, hkd, _, _ => by
    have ha : a.isAlphanum = true := (List.all_eq_true.mp hkd) a (by simp)
    simp only [List.cons_append, List.nil_append]
    exact isPrefixOf_head_ne a ' ' _ w (alnum_ne_special ha).1
  | a :: kd, c :: ke, z, w, hkd, hke, hne => by
    simp only [List.cons_append, List.isPrefixOf_cons₂]
    by_cases hac : a = c
    · subst hac
      have h1 : kd.all Char.isAlphanum = true := by
        have := List.all_eq_true.mp hkd
        exact List.all_eq_true.mpr (fun x hx => this x (by simp [hx]))
      have h2 : ke.all Char.isAlphanum = true := by
        have := List.all_eq_true.mp hke
        exact List.all_eq_true.mpr (fun x hx => this x (by simp [hx]))
      have h3 : kd ≠ ke := fun hdd => hne (by rw [hdd])
      simp [keys_mismatch kd ke z w h1 h2 h3]
    · simp [hac]

theorem keyOK_all_alnum {k : String} (hk : keyOK k = true) :
    k.data.all Char.isAlphanum = true := by
  rw [keyOK, Bool.and_eq_true] at hk
  exact hk.2

theorem ph_not_prefix_ph (k ke : String) (hk : keyOK k = true)
    (hke : keyOK ke = true) (hne : ke ≠ k) (rest : List Char) :
    (placeholder k).isPrefixOf (placeholder ke ++ rest) = false := by
  have hsh : placeholder ke ++ rest =
      '\x7b' :: '\x7b' :: ' ' :: (ke.data ++ (' ' :: '\x7d' :: '\x7d' :: rest)) := by
    simp [placeholder]
  rw [hsh]
  show (k.data ++ (' ' :: ['\x7d', '\x7d'])).isPrefixOf
      (ke.data ++ (' ' :: ('\x7d' :: '\x7d' :: rest))) = false
  refine keys_mismatch k.data ke.data _ _ (keyOK_all_alnum hk) (keyOK_all_alnum hke) ?_
  intro hd
  exact hne (String.toList_inj.mp hd).symm

theorem replaceL_ph_ne (k ke : String) (rep rest : List Char)
    (hk : keyOK k = true) (hke : keyOK ke = true) (hne : ke ≠ k) :
    replaceL (placeholder k) rep (placeholder ke ++ rest) =
      placeholder ke ++ replaceL (placeholder k) rep rest := by
  have h1 := ph_not_prefix_ph k ke hk hke hne rest
  have hsh : placeholder ke ++ rest =
      '\x7b' :: '\x7b' :: ' ' :: (ke.data ++ (' ' :: '\x7d' :: '\x7d' :: rest)) := by
    simp [placeholder]
  rw [hsh] at h1
  have h2 : ∀ (X : List Char),
      (placeholder k).isPrefixOf ('\x7b' :: ' ' :: X) = false := fun _ => rfl
  have h3 : ∀ (X : List Char),
      (placeholder k).isPrefixOf (' ' :: X) = false := fun _ => rfl
  have h4 : ∀ (X : List Char),
      (placeholder k).isPrefixOf ('\x7d' :: X) = false := fun _ => rfl
  have hkchars : ∀ c ∈ ke.data, c ≠ '\x7b' := by
    intro c hc
    exact (alnum_ne_special ((List.all_eq_true.mp (keyOK_all_alnum hke)) c hc)).2.1
  rw [hsh, replaceL_skip _ _ _ _ h1, replaceL_skip _ _ _ _ (h2 _),
    replaceL_skip _ _ _ _ (h3 _)]
  rw [show (placeholder k) = '\x7b' :: ('\x7b' :: ' ' :: (k.data ++ [' ', '\x7d', '\x7d']))
    from rfl]
  rw [replaceL_chunk _ _ _ _ _ hkchars]
  rw [show ('\x7b' :: ('\x7b' :: ' ' :: (k.data ++ [' ', '\x7d', '\x7d']))) = placeholder k
    from rfl]
  rw [replaceL_skip _ _ _ _ (h3 _), replaceL_skip _ _ _ _ (h4 _),
    replaceL_skip _ _ _ _ (h4 _)]
  simp [placeholder]

theorem joinToks_cons (t : Tok) (ts : List Tok) :
    joinToks (t :: ts) = tokChars t ++ joinToks ts := by
  simp [joinToks]

theorem placeholder_ne_nil (k : String) : placeholder k ≠ [] := by
  simp [placeholder]

/-- One `str.replace` pass over a token-structured body substitutes exactly
the matching hole tokens. -/
theorem replace_joinToks (k : String) (v : List Char) (hk : keyOK k = true) :
    ∀ (toks : List Tok), (∀ t ∈ toks, tokOK t = true) →
      replaceL (placeholder k) v (joinToks toks) =
        joinToks (toks.map (substTok k v))
  | [], _ => by simp [joinToks, replaceL_nil]
  | .lit s :: ts, h => by
    have hs : braceFree s = true := h (.lit s) (by simp)
    have hch : ∀ c ∈ s, c ≠ '\x7b' := by
      intro c hc
      have hcc := (List.all_eq_true.mp hs) c hc
      simp only [decide_eq_true_eq, Bool.and_eq_true] at hcc
      exact hcc.1
    rw [joinToks_cons, show tokChars (.lit s) = s from rfl,
      show placeholder k = '\x7b' :: ('\x7b' :: ' ' :: (k.data ++ [' ', '\x7d', '\x7d']))
        from rfl,
      replaceL_chunk _ _ _ _ _ hch,
      show ('\x7b' :: ('\x7b' :: ' ' :: (k.data ++ [' ', '\x7d', '\x7d']))) = placeholder k
        from rfl,
      replace_joinToks k v hk ts (fun t ht => h t (by simp [ht])),
      List.map_cons, joinToks_cons]
    rfl
  | .hole k2 :: ts, h => by
    by_cases hk2 : k2 = k
    · subst hk2
      rw [joinToks_cons, show tokChars (.hole k2) = placeholder k2 from rfl,
        replaceL_fire _ _ _ (placeholder_ne_nil k2),
        replace_joinToks k2 v hk ts (fun t ht => h t (by simp [ht])),
        List.map_cons, joinToks_cons]
      simp [substTok, tokChars]
    · have hke : keyOK k2 = true := h (.hole k2) (by simp)
      rw [joinToks_cons, show tokChars (.hole k2) = placeholder k2 from rfl,
        replaceL_ph_ne k k2 v (joinToks ts) hk hke hk2,
        replace_joinToks k v hk ts (fun t ht => h t (by simp [ht])),
        List.map_cons, joinToks_cons]
      simp [substTok, tokChars, hk2]

theorem fullSubst_nil (t : Tok) : fullSubst [] t = t := by
  cases t <;> simp [fullSubst, lookup?]

theorem fullSubst_cons (kv : String × String) (ctx : Row) (t : Tok) :
    fullSubst ctx (substTok kv.1 kv.2.data t) = fullSubst (kv :: ctx) t := by
  cases t with
  | lit s => rfl
  | hole k2 =>
    by_cases hk2 : k2 = kv.1
    · subst hk2
      simp [substTok, fullSubst, lookup?, List.find?_cons]
    · have hne : (kv.1 == k2) = false := by
        simp [Ne.symm hk2]
      simp [substTok, hk2, fullSubst, lookup?, List.find?_cons, hne]

theorem tokOK_substTok (k : String) (v : List Char) (hv : braceFree v = true)
    (t : Tok) (ht : tokOK t = true) : tokOK (substTok k v t) = true := by
  cases t with
  | lit s => exact ht
  | hole k2 =>
    by_cases hk2 : k2 = k <;> simp [substTok, hk2, tokOK, hv, ht] at ht ⊢
    exact ht

/-- The whole replacement loop over a token-structured body performs the
simultaneous substitution: each present-key hole becomes the value of the
first matching context entry, each absent-key hole survives. -/
theorem renderItems_joinToks :
    ∀ (ctx : Row), ctxOK ctx = true →
    ∀ (toks : List Tok), (∀ t ∈ toks, tokOK t = true) →
      renderItems ctx (joinToks toks) = joinToks (toks.map (fullSubst ctx))
  | [], _, toks, _ => by
    have hmap : toks.map (fullSubst []) = toks.map id :=
      List.map_congr_left (fun t _ => fullSubst_nil t)
    rw [renderItems, List.foldl_nil, hmap, List.map_id]
  | kv :: ctx, hctx, toks, htoks => by
    have hall := List.all_eq_true.mp hctx
    have hkv := hall kv (by simp)
    rw [Bool.and_eq_true] at hkv
    have hctx2 : ctxOK ctx = true :=
      List.all_eq_true.mpr (fun x hx => hall x (by simp [hx]))
    have hstep : renderItems (kv :: ctx) (joinToks toks) =
        renderItems ctx (replaceL (placeholder kv.1) kv.2.data (joinToks toks)) := rfl
    rw [hstep, replace_joinToks kv.1 kv.2.data hkv.1 toks htoks,
      renderItems_joinToks ctx hctx2 (toks.map (substTok kv.1 kv.2.data))
        (fun t ht => by
          rcases List.mem_map.mp ht with ⟨t0, ht0, rfl⟩
          exact tokOK_substTok kv.1 kv.2.data hkv.2 t0 (htoks t0 ht0)),
      List.map_map]
    congr 1
    exact List.map_congr_left (fun t _ => fullSubst_cons kv ctx t)

theorem joinToks_fullSubst (ctx : Row) (toks : List Tok) :
    joinToks (toks.map (fullSubst ctx)) = (toks.map (renderTok ctx)).flatten := by
  rw [joinToks, List.map_map]
  congr 1
  apply List.map_congr_left
  intro t _
  cases t with
  | lit s => rfl
  | hole k => cases h : lookup? ctx k <;> simp [fullSubst, renderTok, tokChars, h]

/-! Lemmas about `dict.update` and lookup. -/

theorem find?_map_snd (g : String × String → String) (d : Row) (k : String) :
    (d.map (fun kv => (kv.1, g kv))).find? (fun kv => kv.1 == k) =
      (d.find? (fun kv => kv.1 == k)).map (fun kv => (kv.1, g kv)) := by
  induction d with
  | nil => rfl
  | cons kv d ih =>
    by_cases h : (kv.1 == k) = true <;>
      simp [List.find?_cons, h, ih]

theorem find?_filter_keyCompat (q : String × String → Bool) (d : Row) (k : String)
    (hq : ∀ kv, kv.1 = k → q kv = true) :
    (d.filter q).find? (fun kv => kv.1 == k) = d.find? (fun kv => kv.1 == k) := by
  induction d with
  | nil => rfl
  | cons kv d ih =>
    by_cases hk : (kv.1 == k) = true
    · have hqk : q kv = true := hq kv (beq_iff_eq.mp hk)
      simp [List.filter_cons, hqk, List.find?_cons, hk]
    · by_cases hqkv : q kv = true <;>
        simp [List.filter_cons, hqkv, List.find?_cons, hk, ih]

/-- Lookup in the merged dict: the config's value where the config binds
the key, the page context's value elsewhere. -/
theorem dictUpdate_lookup (d other : Row) (k : String) :
    lookup? (dictUpdate d other) k =
      (lookup? other k).orElse (fun _ => lookup? d k) := by
  rw [dictUpdate, lookup?, List.find?_append, find?_map_snd]
  cases hd : d.find? (fun kv => kv.1 == k) with
  | some kv0 =>
    have hk0 : kv0.1 = k := by
      have hp := List.find?_some hd
      simpa using hp
    cases ho : lookup? other k with
    | some v => simp [Option.orElse, ho, hk0]
    | none =>
      have ho2 : other.find? (fun kv => kv.1 == k) = none := by
        simpa [lookup?] using ho
      simp [Option.orElse, ho, hk0, lookup?, hd, ho2]
  | none =>
    have hdnone : lookup? d k = none := by simp [lookup?, hd]
    rw [find?_filter_keyCompat _ _ _ (fun kv hkv => by rw [hkv, hdnone]; rfl)]
    cases ho : other.find? (fun kv => kv.1 == k) with
    | some v => simp [Option.orElse, lookup?, ho, hd]
    | none => simp [Option.orElse, lookup?, ho, hd]

/-! Claims about rendering. -/

/-- Counterexample to C2 as stated: with config `{title: "Site"}` and page
context `{title: "Widget"}`, `context.update(self.site_config)` overwrites
the page value, so rendering the template body `"{{ title }}"` yields
`"Site"`, not `"Widget"`. -/
theorem page_context_override_counterexample :
    (render_template [("title", "Site")] "\x7b\x7b title \x7d\x7d"
        [("title", "Widget")]).1 = "Site" ∧
    (render_template [("title", "Site")] "\x7b\x7b title \x7d\x7d"
        [("title", "Widget")]).1 ≠ "Widget" := by
  have hmain : (render_template [("title", "Site")] "\x7b\x7b title \x7d\x7d"
      [("title", "Widget")]).1 = "Site" := by
    have hb : ("\x7b\x7b title \x7d\x7d" : String).data =
        joinToks [Tok.hole "title"] := by decide
    show String.mk (renderItems (dictUpdate [("title", "Widget")] [("title", "Site")])
        ("\x7b\x7b title \x7d\x7d" : String).data) = "Site"
    rw [hb, renderItems_joinToks _ (by decide) _ (by decide)]
    decide
  exact ⟨hmain, by rw [hmain]; decide⟩

/-- C2 (amended): on a key collision the SITE CONFIG value wins — the
merged context used by the replacement loop binds every config key to the
config's value — and the spec's concrete example renders to `"Site"`. -/
theorem config_wins_on_collision :
    (∀ (config context : Row) (k v : String),
      lookup? config k = some v →
      lookup? (dictUpdate context config) k = some v) ∧
    (render_template [("title", "Site")] "\x7b\x7b title \x7d\x7d"
        [("title", "Widget")]).1 = "Site" := by
  constructor
  · intro config context k v h
    rw [dictUpdate_lookup, h]
    rfl
  · have hb : ("\x7b\x7b title \x7d\x7d" : String).data =
        joinToks [Tok.hole "title"] := by decide
    show String.mk (renderItems (dictUpdate [("title", "Widget")] [("title", "Site")])
        ("\x7b\x7b title \x7d\x7d" : String).data) = "Site"
    rw [hb, renderItems_joinToks _ (by decide) _ (by decide)]
    decide

/-- Witness for the amended C2 at the spec's own example. -/
theorem config_wins_on_collision_witness :
    lookup? (dictUpdate [("title", "Widget")] [("title", "Site")]) "title" =
      some "Site" :=
  config_wins_on_collision.1 [("title", "Site")] [("title", "Widget")]
    "title" "Site" (by decide)

/-- Counterexample to C5 as stated: with context
`{a: "{{ b }}", b: "X"}` (in that insertion order) the token `{{ a }}` does
NOT end up replaced by the string form of the value of `a`: the later pass
for key `b` rewrites it, and the output is `"X"`. -/
theorem render_cascade_counterexample :
    (render_template [] "\x7b\x7b a \x7d\x7d"
        [("a", "\x7b\x7b b \x7d\x7d"), ("b", "X")]).1 = "X" ∧
    (render_template [] "\x7b\x7b a \x7d\x7d"
        [("a", "\x7b\x7b b \x7d\x7d"), ("b", "X")]).1 ≠ "\x7b\x7b b \x7d\x7d" := by
  have hmain : (render_template [] "\x7b\x7b a \x7d\x7d"
      [("a", "\x7b\x7b b \x7d\x7d"), ("b", "X")]).1 = "X" := by
    show String.mk (replaceL (placeholder "b") "X".data
        (replaceL (placeholder "a") ("\x7b\x7b b \x7d\x7d" : String).data
          ("\x7b\x7b a \x7d\x7d" : String).data)) = "X"
    rw [show ("\x7b\x7b a \x7d\x7d" : String).data = placeholder "a" by decide,
      replaceL_whole _ _ (by decide),
      show ("\x7b\x7b b \x7d\x7d" : String).data = placeholder "b" by decide,
      replaceL_whole _ _ (by decide)]
  exact ⟨hmain, by rw [hmain]; decide⟩

/-- C5 (amended): for template bodies made of brace-free literal chunks and
`{{ key }}` tokens with non-empty alphanumeric keys, and merged contexts of
such keys with brace-free values, rendering replaces each token whose key
the merged context binds by that key's value and leaves each token with an
unbound key verbatim; the spec's two examples hold as stated. -/
theorem render_replaces_each_token :
    (∀ (config context : Row) (toks : List Tok),
      ctxOK (dictUpdate context config) = true →
      (∀ t ∈ toks, tokOK t = true) →
      (render_template config (String.mk (joinToks toks)) context).1 =
        String.mk ((toks.map (renderTok (dictUpdate context config))).flatten)) ∧
    (render_template [] "Price: \x7b\x7b price \x7d\x7d" [("price", "9.99")]).1 =
      "Price: 9.99" ∧
    (render_template [] "\x7b\x7b missing \x7d\x7d" []).1 =
      "\x7b\x7b missing \x7d\x7d" := by
  refine ⟨?_, ?_, ?_⟩
  · intro config context toks h1 h2
    show String.mk (renderItems (dictUpdate context config) (joinToks toks)) = _
    rw [renderItems_joinToks _ h1 _ h2, joinToks_fullSubst]
  · have hb : ("Price: \x7b\x7b price \x7d\x7d" : String).data =
        joinToks [Tok.lit "Price: ".data, Tok.hole "price"] := by decide
    show String.mk (renderItems (dictUpdate [("price", "9.99")] [])
        ("Price: \x7b\x7b price \x7d\x7d" : String).data) = "Price: 9.99"
    rw [hb, renderItems_joinToks _ (by decide) _ (by decide)]
    decide
  · have hb : ("\x7b\x7b missing \x7d\x7d" : String).data =
        joinToks [Tok.hole "missing"] := by decide
    show String.mk (renderItems (dictUpdate [] [])
        ("\x7b\x7b missing \x7d\x7d" : String).data) = "\x7b\x7b missing \x7d\x7d"
    rw [hb, renderItems_joinToks _ (by decide) _ (by decide)]
    decide

/-- Witness for the amended C5 on a body with one present and one absent
key. -/
theorem render_replaces_each_token_witness :
    (render_template [] (String.mk (joinToks
        [Tok.lit "Hi ".data, Tok.hole "name", Tok.hole "nope"])) [("name", "Ann")]).1 =
      String.mk (([Tok.lit "Hi ".data, Tok.hole "name", Tok.hole "nope"].map
        (renderTok (dictUpdate [("name", "Ann")] []))).flatten) :=
  render_replaces_each_token.1 [] [("name", "Ann")]
    [Tok.lit "Hi ".data, Tok.hole "name", Tok.hole "nope"] (by decide) (by decide)

/-- C10: `render_template` mutates the caller's context dict in place via
`context.update(self.site_config)`: afterwards it is exactly the merge, in
which every site-config key is bound to the config's value (overwriting a
colliding page-specific entry) and every other page entry keeps its value;
the config dict is only read, never written.  (The embedding returns the
mutated context; the config argument is passed by value, so its
preservation is structural.) -/
theorem render_template_mutates_context (config : Row) (body : String)
    (context : Row) :
    (render_template config body context).2 = dictUpdate context config ∧
    ∀ (k : String), lookup? ((render_template config body context).2) k =
      (lookup? config k).orElse (fun _ => lookup? context k) :=
  ⟨rfl, fun k => dictUpdate_lookup context config k⟩

/-- C7: the sitemap is the root entry (priority 1.0, daily), then one entry
per product in collection order (`<base_url>/products/<slug>.html`, 0.8,
weekly), then one per post (`<base_url>/blog/<slug>.html`, 0.7, monthly),
and every entry's `lastmod` is the build's current date. -/
theorem sitemap_structure (cfg : Row) (products posts : List Row) (today : Date) :
    generate_sitemap cfg products posts today =
      ⟨rowGet cfg "base_url", "1.0", "daily", fmtDate today⟩ ::
        (products.map (fun p =>
          ⟨rowGet cfg "base_url" ++ "/products/" ++ slugify (rowGet p "title") ++ ".html",
           "0.8", "weekly", fmtDate today⟩)
         ++ posts.map (fun p =>
          ⟨rowGet cfg "base_url" ++ "/blog/" ++ slugify (rowGet p "title") ++ ".html",
           "0.7", "monthly", fmtDate today⟩)) ∧
    (generate_sitemap cfg products posts today).map (fun e => e.lastmod) =
      List.replicate (1 + products.length + posts.length) (fmtDate today) := by
  refine ⟨generate_sitemap_eq cfg products posts today, ?_⟩
  rw [generate_sitemap_eq]
  simp only [List.map_cons, List.map_append, List.map_map]
  rw [show (1 + products.length + posts.length) =
    Nat.succ (products.length + posts.length) by omega]
  rw [List.replicate_succ, List.replicate_add]
  simp [Function.comp_def, List.map_const']

/-- C8: the RSS channel takes title, description and link from the site
config, and its items are exactly the first 10 (at most) posts of the
collection in order, with description the post's `excerpt` (default empty)
and `pubDate` the raw `publish_date` string (default empty). -/
theorem rss_structure (cfg : Row) (posts : List Row) :
    (generate_rss cfg posts).title = rowGet cfg "title" ∧
    (generate_rss cfg posts).description = rowGet cfg "description" ∧
    (generate_rss cfg posts).link = rowGet cfg "base_url" ∧
    (generate_rss cfg posts).items = (posts.take 10).map (fun post =>
      ⟨rowGet post "title", rowGet post "excerpt",
       rowGet cfg "base_url" ++ "/blog/" ++ slugify (rowGet post "title") ++ ".html",
       rowGet post "publish_date"⟩) ∧
    (generate_rss cfg posts).items.length ≤ 10 :=
  ⟨rfl, rfl, rfl, generate_rss_items_eq cfg posts, by
    rw [generate_rss_items_eq, List.length_map]
    exact List.length_take_le 10 posts⟩

theorem loc_split_products (base slug : String) :
    base ++ "/products/" ++ slug ++ ".html" =
      base ++ "/" ++ ("products/" ++ slug ++ ".html") := by
  simp only [String.append_assoc]
  rfl

theorem loc_split_blog (base slug : String) :
    base ++ "/blog/" ++ slug ++ ".html" =
      base ++ "/" ++ ("blog/" ++ slug ++ ".html") := by
  simp only [String.append_assoc]
  rfl

theorem mem_generate_pages_product (products posts : List Row) (p : Row)
    (hp : p ∈ products) :
    ("products/" ++ slugify (rowGet p "title") ++ ".html") ∈
      generate_pages products posts := by
  rw [generate_pages]
  simp only [List.mem_append, List.mem_map]
  exact Or.inl (Or.inl (Or.inr ⟨p, hp, rfl⟩))

theorem mem_generate_pages_post (products posts : List Row) (p : Row)
    (hp : p ∈ posts) :
    ("blog/" ++ slugify (rowGet p "title") ++ ".html") ∈
      generate_pages products posts := by
  rw [generate_pages]
  simp only [List.mem_append, List.mem_map]
  exact Or.inr ⟨p, hp, rfl⟩

/-- C6: every URL the sitemap emits is the site root or
`<base_url>/<path>` for a detail-page path that `generate_pages` actually
writes, and every RSS item link is `<base_url>/<path>` for such a path;
the slug inside the URL is exactly the slug of the written file. -/
theorem cross_artifact_slug_consistency (cfg : Row) (products posts : List Row)
    (today : Date) :
    (∀ e ∈ generate_sitemap cfg products posts today,
      e.loc = rowGet cfg "base_url" ∨
      ∃ path ∈ generate_pages products posts,
        e.loc = rowGet cfg "base_url" ++ "/" ++ path) ∧
    (∀ item ∈ (generate_rss cfg posts).items,
      ∃ path ∈ generate_pages products posts,
        item.link = rowGet cfg "base_url" ++ "/" ++ path) := by
  constructor
  · intro e he
    rw [generate_sitemap_eq] at he
    rcases List.mem_cons.mp he with rfl | he
    · exact Or.inl rfl
    · rcases List.mem_append.mp he with he | he
      · rcases List.mem_map.mp he with ⟨p, hp, rfl⟩
        exact Or.inr ⟨"products/" ++ slugify (rowGet p "title") ++ ".html",
          mem_generate_pages_product products posts p hp,
          loc_split_products _ _⟩
      · rcases List.mem_map.mp he with ⟨p, hp, rfl⟩
        exact Or.inr ⟨"blog/" ++ slugify (rowGet p "title") ++ ".html",
          mem_generate_pages_post products posts p hp,
          loc_split_blog _ _⟩
  · intro item him
    rw [generate_rss_items_eq] at him
    rcases List.mem_map.mp him with ⟨p, hp, rfl⟩
    exact ⟨"blog/" ++ slugify (rowGet p "title") ++ ".html",
      mem_generate_pages_post products posts p (List.take_subset 10 posts hp),
      loc_split_blog _ _⟩

/-- Witness for C6 on a one-product, one-post build. -/
theorem cross_artifact_slug_consistency_witness :
    ((⟨"https://x/products/a-b.html", "0.8", "weekly", "2025-10-12"⟩ : UrlEntry).loc =
        rowGet [("base_url", "https://x")] "base_url" ∨
      ∃ path ∈ generate_pages [[("title", "A B")]] [[("title", "C")]],
        (⟨"https://x/products/a-b.html", "0.8", "weekly", "2025-10-12"⟩ : UrlEntry).loc =
          rowGet [("base_url", "https://x")] "base_url" ++ "/" ++ path) ∧
    (∃ path ∈ generate_pages [[("title", "A B")]] [[("title", "C")]],
      (⟨"C", "", "https://x/blog/c.html", ""⟩ : RssItem).link =
        rowGet [("base_url", "https://x")] "base_url" ++ "/" ++ path) :=
  ⟨(cross_artifact_slug_consistency [("base_url", "https://x")]
      [[("title", "A B")]] [[("title", "C")]] ⟨2025, 10, 12⟩).1 _ (by decide),
   (cross_artifact_slug_consistency [("base_url", "https://x")]
      [[("title", "A B")]] [[("title", "C")]] ⟨2025, 10, 12⟩).2 _ (by decide)⟩

end Build
